import Mathlib

/-!
Verification of the family-calendar client (Slice C: auth + agenda filtering).

The definitions below are a shallow embedding of the TypeScript sources:
- `src/frontend/src/state/README.sliceC.txt` (events-agenda.ts: `getAttendeeIds`,
  `agendaFilter`, `canEditAccordingToAuth`; featureFlags.ts),
- `src/frontend/src/auth/AuthProvider.tsx` (`signIn`, `signOut`, `canEditEvent`,
  `selfDemote`, `currentUser` resolution),
- `src/frontend/src/lib/migrateSliceC.ts` (`migrateSettings`, `migrateEvents`,
  `normalizeTags`).

Events are embedded at the type declared in the sources (`AnyEvent`): every
participant-reference field is optional and, when present, carries the declared
type (string or string array).  JavaScript truthiness is modelled field by
field: an array field is truthy exactly when present (empty arrays are truthy
in JavaScript), a string field is truthy when present and nonempty.
-/

inductive Role : Type
  | parent
  | adult
  | child
deriving DecidableEq, Repr

/-- Embedding of the `User` record of AuthProvider.tsx. -/
structure UserR : Type where
  id : String
  email : String
  displayName : Option String := none
  role : Role
  linkedMemberIds : List String
  salt : String
  passwordHash : String
  createdAt : String := ""
deriving DecidableEq, Repr

/-- Embedding of the `Session` record: `{ currentUserId: string | null }`. -/
structure SessionR : Type where
  currentUserId : Option String
deriving DecidableEq, Repr

/-- Embedding of the loose `AnyEvent` shape of events-agenda.ts: every
participant-reference field optional, typed as declared in the source. -/
structure AnyEvent : Type where
  id : String := ""
  attendeeIds : Option (List String) := none
  attendees : Option (List String) := none
  members : Option (List String) := none
  responsibleId : Option String := none
  responsibleMemberId : Option String := none
  ownerMemberId : Option String := none
  createdByUserId : Option String := none
deriving DecidableEq, Repr

/-- JavaScript truthiness test for an optional string field: present and
nonempty. -/
def strTruthy : Option String → Bool
  | some s => s != ""
  | none => false

/-- The guard pattern `field && mine.has(field)` used throughout the sources
for the responsible/owner fields. -/
def strHit : Option String → List String → Bool
  | some s, mine => (s != "") && mine.contains s
  | none, _ => false

/-- `getAttendeeIds` from events-agenda.ts: first of
`attendeeIds` / `attendees` / `members` that is an array, else `[]`. -/
def getAttendeeIds (evt : AnyEvent) : List String :=
  match evt.attendeeIds with
  | some l => l
  | none =>
    match evt.attendees with
    | some l => l
    | none =>
      match evt.members with
      | some l => l
      | none => []

/-- The user view the agenda filter needs: `{ linkedMemberIds: string[] }`. -/
structure AgendaUser : Type where
  linkedMemberIds : List String
deriving DecidableEq, Repr

/-- The options record taken by `agendaFilter`. -/
structure AgendaOpts : Type where
  myAgendaOnly : Bool
  currentUser : Option AgendaUser
  authEnabled : Bool
deriving DecidableEq, Repr

/-- Body of the `events.filter` callback inside `agendaFilter`
(events-agenda.ts lines 70-77): attendee overlap, then the truthiness-guarded
checks of `responsibleId`, `responsibleMemberId` and `ownerMemberId`. -/
def agendaMatches (mine : List String) (evt : AnyEvent) : Bool :=
  (getAttendeeIds evt).any (fun m => mine.contains m) ||
  strHit evt.responsibleId mine ||
  strHit evt.responsibleMemberId mine ||
  strHit evt.ownerMemberId mine

/-- `agendaFilter` from events-agenda.ts: identity unless the flag is on, a
user is signed in and the toggle is on; empty output when the linked-member
set is empty; otherwise filter by `agendaMatches`. -/
def agendaFilter (events : List AnyEvent) (opts : AgendaOpts) : List AnyEvent :=
  match opts.authEnabled, opts.currentUser, opts.myAgendaOnly with
  | true, some cu, true =>
    let mine := cu.linkedMemberIds
    if mine.isEmpty then [] else events.filter (agendaMatches mine)
  | _, _, _ => events

/-- C1: agendaFilter identity law — if `authEnabled` is false, or no user is
signed in, or `myAgendaOnly` is false, the input event list is returned
unchanged. -/
theorem agendaFilter_identity (events : List AnyEvent) (opts : AgendaOpts)
    (h : opts.authEnabled = false ∨ opts.currentUser = none ∨ opts.myAgendaOnly = false) :
    agendaFilter events opts = events := by
  unfold agendaFilter
  rcases hA : opts.authEnabled <;> rcases hc : opts.currentUser <;>
    rcases hm : opts.myAgendaOnly <;> simp_all

/-- C1 witness: the identity law applied at a concrete flag-off option
record and a concrete one-event list. -/
theorem agendaFilter_identity_witness :
    agendaFilter [{ id := "e1" }]
      { myAgendaOnly := true, currentUser := some ⟨["m1"]⟩, authEnabled := false } =
      [{ id := "e1" }] :=
  agendaFilter_identity _ _ (Or.inl rfl)

/-- C5: agendaFilter empty-links law — with the flag on, a user signed in and
the toggle on, a user whose `linkedMemberIds` is empty sees the empty list. -/
theorem agendaFilter_empty_links (events : List AnyEvent) (opts : AgendaOpts)
    (cu : AgendaUser) (hA : opts.authEnabled = true) (hc : opts.currentUser = some cu)
    (hm : opts.myAgendaOnly = true) (hl : cu.linkedMemberIds = []) :
    agendaFilter events opts = [] := by
  unfold agendaFilter
  rw [hA, hc, hm]
  simp [hl]

/-- C5 witness: the empty-links law applied at a concrete option record with
an empty linked-member set over a nonempty event list. -/
theorem agendaFilter_empty_links_witness :
    agendaFilter [{ id := "e1", attendeeIds := some ["m1"] }]
      { myAgendaOnly := true, currentUser := some ⟨[]⟩, authEnabled := true } = [] :=
  agendaFilter_empty_links _ _ ⟨[]⟩ rfl rfl rfl rfl

/-- JavaScript `a || b` on two optional array fields: arrays are truthy even
when empty, so the first present field wins. -/
def jsOrList (a b : Option (List String)) : Option (List String) :=
  if a.isSome then a else b

/-- JavaScript `a || b` on two optional string fields: the first present and
nonempty string wins. -/
def jsOrStr (a b : Option String) : Option String :=
  match a with
  | some s => if s = "" then b else some s
  | none => b

/-- The attendee extraction inside AuthProvider's `canEditEvent`:
`evt?.attendeeIds || evt?.attendees || evt?.members || []`. -/
def authAttendeeIds (evt : AnyEvent) : List String :=
  (jsOrList evt.attendeeIds (jsOrList evt.attendees evt.members)).getD []

/-- `canEditEvent` from AuthProvider.tsx, as a function of the resolved
`currentUser`: parent always true, child always false, adult by overlap of the
linked-member set with attendees / first-truthy responsible / owner, and
`true` when nobody is signed in.  The function never reads the feature flag. -/
def canEditEvent (cu : Option UserR) (evt : AnyEvent) : Bool :=
  match cu with
  | some u =>
    match u.role with
    | Role.parent => true
    | Role.child => false
    | Role.adult =>
      let mine := u.linkedMemberIds
      let attendees := authAttendeeIds evt
      let responsible := jsOrStr evt.responsibleId evt.responsibleMemberId
      attendees.any (fun m => mine.contains m) ||
      strHit responsible mine ||
      strHit evt.ownerMemberId mine
  | none => true

/-- The context record taken by `canEditAccordingToAuth` in events-agenda.ts:
`{ role?: Role; linkedMemberIds?: string[] } | null`. -/
structure AuthCtx : Type where
  role : Option Role
  linkedMemberIds : Option (List String)
deriving DecidableEq, Repr

/-- `canEditAccordingToAuth` from events-agenda.ts: full access when the flag
is off; false without a context or role; parent true, child false; adult by
overlap with attendees and each of the responsible spellings and the owner. -/
def canEditAccordingToAuth (evt : AnyEvent) (ctx : Option AuthCtx)
    (authEnabled : Bool) : Bool :=
  if !authEnabled then true
  else
    match ctx with
    | none => false
    | some c =>
      match c.role with
      | none => false
      | some Role.parent => true
      | some Role.child => false
      | some Role.adult =>
        let mine := c.linkedMemberIds.getD []
        (getAttendeeIds evt).any (fun m => mine.contains m) ||
        strHit evt.responsibleId mine ||
        strHit evt.responsibleMemberId mine ||
        strHit evt.ownerMemberId mine

/-- The participant references `canEditEvent` actually consults for an adult:
the attendee list of the first present spelling, the first truthy responsible
spelling, and the owner field when nonempty. -/
def authEditRefs (evt : AnyEvent) : List String :=
  authAttendeeIds evt ++
  (jsOrStr evt.responsibleId evt.responsibleMemberId).toList.filter (fun s => s ≠ "") ++
  evt.ownerMemberId.toList.filter (fun s => s ≠ "")

/-- Boolean list containment agrees with list membership over strings. -/
theorem string_contains_iff (l : List String) (a : String) :
    l.contains a = true ↔ a ∈ l := by
  simp [List.contains, List.elem_iff]

/-- A truthiness-guarded check succeeds exactly when the nonempty value is a
linked member. -/
theorem strHit_eq_true (o : Option String) (mine : List String) :
    strHit o mine = true ↔ ∃ s ∈ o.toList.filter (fun s => s ≠ ""), s ∈ mine := by
  cases o with
  | none => simp [strHit]
  | some s =>
    by_cases h : s = "" <;> simp [strHit, h, string_contains_iff]

/-- The attendee extraction of AuthProvider coincides with `getAttendeeIds`
on events typed as `AnyEvent` declares them. -/
theorem authAttendeeIds_eq (evt : AnyEvent) : authAttendeeIds evt = getAttendeeIds evt := by
  rcases evt with ⟨_, a, b, c, _, _, _, _⟩
  cases a <;> cases b <;> cases c <;> rfl

/-- C3 counterexample: the claim says an adult gets `true` iff the
participant-reference fields, across all accepted spellings, intersect the
linked-member set.  Two concrete events where a field does reference the
linked member `m1` yet `canEditEvent` answers `false`: one where
`responsibleMemberId = m1` is shadowed by a truthy `responsibleId`, one where
`attendees = [m1]` is shadowed by a present `attendeeIds`. -/
theorem canEditEvent_matrix_counterexample :
    (canEditEvent
        (some { id := "u1", email := "a@x", role := Role.adult,
                linkedMemberIds := ["m1"], salt := "s", passwordHash := "h" })
        { id := "e1", responsibleId := some "x", responsibleMemberId := some "m1" } = false ∧
      ({ id := "e1", responsibleId := some "x", responsibleMemberId := some "m1" } :
        AnyEvent).responsibleMemberId = some "m1") ∧
    (canEditEvent
        (some { id := "u1", email := "a@x", role := Role.adult,
                linkedMemberIds := ["m1"], salt := "s", passwordHash := "h" })
        { id := "e2", attendeeIds := some ["x"], attendees := some ["m1"] } = false ∧
      ({ id := "e2", attendeeIds := some ["x"], attendees := some ["m1"] } :
        AnyEvent).attendees = some ["m1"]) := by
  constructor <;> exact ⟨by decide, rfl⟩

/-- C3 amended: the role permission matrix of `canEditEvent` — parent always
true, child always false, nobody-signed-in always true, and an adult gets true
iff the references the code actually consults (the attendee list of the first
present spelling, the first truthy responsible spelling, the owner when
nonempty) intersect the linkedMemberIds. -/
theorem canEditEvent_matrix (u : UserR) (evt : AnyEvent) :
    (u.role = Role.parent → canEditEvent (some u) evt = true) ∧
    (u.role = Role.child → canEditEvent (some u) evt = false) ∧
    (u.role = Role.adult →
      (canEditEvent (some u) evt = true ↔
        ∃ m, m ∈ authEditRefs evt ∧ m ∈ u.linkedMemberIds)) ∧
    canEditEvent none evt = true := by
  refine ⟨fun h => ?_, fun h => ?_, fun h => ?_, rfl⟩
  · simp [canEditEvent, h]
  · simp [canEditEvent, h]
  · simp only [canEditEvent, h, authEditRefs, List.mem_append, List.any_eq_true,
      Bool.or_eq_true, strHit_eq_true, string_contains_iff]
    constructor
    · rintro ((⟨m, hm, hmem⟩ | ⟨s, hs, hmem⟩) | ⟨s, hs, hmem⟩)
      · exact ⟨m, Or.inl (Or.inl hm), hmem⟩
      · exact ⟨s, Or.inl (Or.inr hs), hmem⟩
      · exact ⟨s, Or.inr hs, hmem⟩
    · rintro ⟨m, (hm | hm) | hm, hmem⟩
      · exact Or.inl (Or.inl ⟨m, hm, hmem⟩)
      · exact Or.inl (Or.inr ⟨m, hm, hmem⟩)
      · exact Or.inr ⟨m, hm, hmem⟩

/-- The participant references `agendaFilter` actually consults: the attendee
list of the first present spelling, then each responsible spelling and the
owner field when nonempty. -/
def agendaRefs (evt : AnyEvent) : List String :=
  getAttendeeIds evt ++
  evt.responsibleId.toList.filter (fun s => s ≠ "") ++
  evt.responsibleMemberId.toList.filter (fun s => s ≠ "") ++
  evt.ownerMemberId.toList.filter (fun s => s ≠ "")

/-- The filter predicate of `agendaFilter` holds exactly when one of the
consulted participant references is a linked member. -/
theorem agendaMatches_iff (mine : List String) (evt : AnyEvent) :
    agendaMatches mine evt = true ↔ ∃ m ∈ agendaRefs evt, m ∈ mine := by
  simp only [agendaMatches, agendaRefs, List.mem_append, List.any_eq_true,
    Bool.or_eq_true, strHit_eq_true, string_contains_iff]
  constructor
  · rintro (((⟨m, hm, hmem⟩ | ⟨s, hs, hmem⟩) | ⟨s, hs, hmem⟩) | ⟨s, hs, hmem⟩)
    · exact ⟨m, Or.inl (Or.inl (Or.inl hm)), hmem⟩
    · exact ⟨s, Or.inl (Or.inl (Or.inr hs)), hmem⟩
    · exact ⟨s, Or.inl (Or.inr hs), hmem⟩
    · exact ⟨s, Or.inr hs, hmem⟩
  · rintro ⟨m, ((hm | hm) | hm) | hm, hmem⟩
    · exact Or.inl (Or.inl (Or.inl ⟨m, hm, hmem⟩))
    · exact Or.inl (Or.inl (Or.inr ⟨m, hm, hmem⟩))
    · exact Or.inl (Or.inr ⟨m, hm, hmem⟩)
    · exact Or.inr ⟨m, hm, hmem⟩

/-- C4 counterexample: the claim says an event is retained iff the union of
the participant fields over all spellings intersects the linked set.  A
concrete event whose `attendees` spelling lists the linked member `m1` is
nevertheless dropped, because the present `attendeeIds` spelling shadows it. -/
theorem agendaFilter_membership_counterexample :
    agendaFilter [{ id := "e1", attendeeIds := some ["x"], attendees := some ["m1"] }]
      { myAgendaOnly := true, currentUser := some ⟨["m1"]⟩, authEnabled := true } = [] ∧
    ({ id := "e1", attendeeIds := some ["x"], attendees := some ["m1"] } :
      AnyEvent).attendees = some ["m1"] :=
  ⟨by decide, rfl⟩

/-- C4 amended: with filtering active and a nonempty linked set, the output is
the input filtered by the agenda predicate, and an event is retained iff the
references the code actually consults (attendees of the first present
spelling, each nonempty responsible spelling, the nonempty owner) intersect
the linked-member set. -/
theorem agendaFilter_membership (events : List AnyEvent) (opts : AgendaOpts)
    (cu : AgendaUser) (hA : opts.authEnabled = true) (hc : opts.currentUser = some cu)
    (hm : opts.myAgendaOnly = true) (hne : cu.linkedMemberIds ≠ []) :
    agendaFilter events opts = events.filter (agendaMatches cu.linkedMemberIds) ∧
    ∀ e, e ∈ agendaFilter events opts ↔
      e ∈ events ∧ ∃ m ∈ agendaRefs e, m ∈ cu.linkedMemberIds := by
  have hE : cu.linkedMemberIds.isEmpty = false := by
    cases hL : cu.linkedMemberIds with
    | nil => exact absurd hL hne
    | cons a l => rfl
  have h1 : agendaFilter events opts = events.filter (agendaMatches cu.linkedMemberIds) := by
    unfold agendaFilter
    rw [hA, hc, hm]
    simp [hE]
  refine ⟨h1, fun e => ?_⟩
  rw [h1, List.mem_filter, agendaMatches_iff]

/-- C4 witness: the amended theorem applied at a concrete active context with
linked member `m1`, reducing the filter to the agenda predicate. -/
theorem agendaFilter_membership_witness :
    agendaFilter [{ id := "e1", attendeeIds := some ["m1"] }]
      { myAgendaOnly := true, currentUser := some ⟨["m1"]⟩, authEnabled := true } =
    List.filter (agendaMatches ["m1"]) [{ id := "e1", attendeeIds := some ["m1"] }] :=
  (agendaFilter_membership _ _ ⟨["m1"]⟩ rfl rfl rfl (by decide)).1

/-- C3 witness: the amended matrix applied at a concrete adult and an event
whose owner field is the linked member, concluding edit permission. -/
theorem canEditEvent_matrix_witness :
    canEditEvent
      (some { id := "u1", email := "a@x", role := Role.adult,
              linkedMemberIds := ["m1"], salt := "s", passwordHash := "h" })
      { id := "e3", ownerMemberId := some "m1" } = true :=
  ((canEditEvent_matrix
      { id := "u1", email := "a@x", role := Role.adult,
        linkedMemberIds := ["m1"], salt := "s", passwordHash := "h" }
      { id := "e3", ownerMemberId := some "m1" }).2.2.1 rfl).mpr
    ⟨"m1", by decide, by decide⟩


/-- Result shape used by signIn and selfDemote:
`{ ok: true } | { ok: false; reason: string }`. -/
inductive OpResult : Type
  | ok
  | err (reason : String)
deriving DecidableEq, Repr

/-- Character-wise lowercase map, the executable model of the
`toLowerCase()` calls in signIn (emails are ASCII in this repository). -/
def lowerStr (s : String) : String := String.mk (s.data.map Char.toLower)

/-- `signIn` from AuthProvider.tsx, with the digest (`sha256Hex`) abstracted
as a function parameter and the feature flag, stored users and session passed
as explicit state: flag check, first case-insensitive email match, hash
comparison of `digest(salt + password)`, session write on success. -/
def signIn (digest : String → String) (authEnabled : Bool) (users : List UserR)
    (sess : SessionR) (email password : String) : OpResult × SessionR :=
  if !authEnabled then (OpResult.err "Authentication is disabled.", sess)
  else
    match users.find? (fun u => lowerStr u.email == lowerStr email) with
    | none => (OpResult.err "Account not found.", sess)
    | some u =>
      if digest (u.salt ++ password) != u.passwordHash then
        (OpResult.err "Incorrect password.", sess)
      else (OpResult.ok, { currentUserId := some u.id })

/-- `signOut` from AuthProvider.tsx: a no-op when the flag is off, otherwise
the session is cleared. -/
def signOut (authEnabled : Bool) (sess : SessionR) : SessionR :=
  if !authEnabled then sess else { currentUserId := none }

/-- The `currentUser` memo of AuthProvider.tsx:
`users.find((u) => u.id === session.currentUserId) ?? null`. -/
def currentUserOf (users : List UserR) (sess : SessionR) : Option UserR :=
  users.find? (fun u => some u.id == sess.currentUserId)

/-- C2 counterexample: the claim quotes the failure reason without the
trailing period the code emits, and states success whenever some stored
account matches email and password.  Concretely: with the flag off the reason
is the dotted string, not the undotted one; and with two accounts sharing an
email where only the second has the right password, signIn fails with
"Incorrect password." even though a matching account exists. -/
theorem signIn_claim_counterexample :
    ((signIn (fun s => s) false [] { currentUserId := none } "e@x" "p").1 =
        OpResult.err "Authentication is disabled." ∧
      "Authentication is disabled." ≠ "Authentication is disabled") ∧
    ((signIn (fun s => s) true
          [{ id := "u1", email := "e@x", role := Role.parent, linkedMemberIds := [],
             salt := "s", passwordHash := "WRONG" },
           { id := "u2", email := "e@x", role := Role.parent, linkedMemberIds := [],
             salt := "s", passwordHash := "sp" }]
          { currentUserId := none } "e@x" "p").1 = OpResult.err "Incorrect password." ∧
      (fun s => s) ("s" ++ "p") = "sp") := by
  refine ⟨⟨rfl, by decide⟩, ⟨by decide, rfl⟩⟩

/-- C2 amended: signIn succeeds iff the flag is on and the digest of salt and
password of the FIRST account whose email matches case-insensitively equals
its stored hash; on success the session points at that first match; on
failure the session is unchanged and the reason is "Authentication is
disabled." / "Account not found." / "Incorrect password." (each with a
trailing period). -/
theorem signIn_spec (digest : String → String) (authEnabled : Bool)
    (users : List UserR) (sess : SessionR) (email password : String) :
    (authEnabled = false →
      signIn digest authEnabled users sess email password =
        (OpResult.err "Authentication is disabled.", sess)) ∧
    (authEnabled = true →
      users.find? (fun u => lowerStr u.email == lowerStr email) = none →
      signIn digest authEnabled users sess email password =
        (OpResult.err "Account not found.", sess)) ∧
    (∀ u, authEnabled = true →
      users.find? (fun v => lowerStr v.email == lowerStr email) = some u →
      digest (u.salt ++ password) ≠ u.passwordHash →
      signIn digest authEnabled users sess email password =
        (OpResult.err "Incorrect password.", sess)) ∧
    (∀ u, authEnabled = true →
      users.find? (fun v => lowerStr v.email == lowerStr email) = some u →
      digest (u.salt ++ password) = u.passwordHash →
      signIn digest authEnabled users sess email password =
        (OpResult.ok, { currentUserId := some u.id })) := by
  refine ⟨fun hA => ?_, fun hA hf => ?_, fun u hA hf hne => ?_, fun u hA hf heq => ?_⟩
  · simp [signIn, hA]
  · simp [signIn, hA, hf]
  · simp [signIn, hA, hf, hne]
  · simp [signIn, hA, hf, heq]

/-- C2 witness: the amended theorem applied at a concrete store with one
account and the identity digest, matching the email case-insensitively and
signing in. -/
theorem signIn_spec_witness :
    signIn (fun s => s) true
      [{ id := "u1", email := "parent@local.test", role := Role.parent,
         linkedMemberIds := [], salt := "s1", passwordHash := "s1parent123" }]
      { currentUserId := none } "Parent@Local.Test" "parent123" =
      (OpResult.ok, { currentUserId := some "u1" }) :=
  (signIn_spec (fun s => s) true
      [{ id := "u1", email := "parent@local.test", role := Role.parent,
         linkedMemberIds := [], salt := "s1", passwordHash := "s1parent123" }]
      { currentUserId := none } "Parent@Local.Test" "parent123").2.2.2
    { id := "u1", email := "parent@local.test", role := Role.parent,
      linkedMemberIds := [], salt := "s1", passwordHash := "s1parent123" }
    rfl (by decide) (by decide)

/-- The role order array of `selfDemote`: `['parent', 'adult', 'child']`,
position = `indexOf`. -/
def roleIndex : Role → Nat
  | Role.parent => 0
  | Role.adult => 1
  | Role.child => 2

/-- `selfDemote` from AuthProvider.tsx: demotion allowed only when the next
role sits strictly later in the order array (strictly lower in the fixed
ordering parent, adult, child); on success the stored user list is rewritten
with the new role, otherwise it is untouched. -/
def selfDemote (users : List UserR) (cu : Option UserR) (nextRole : Role) :
    OpResult × List UserR :=
  match cu with
  | none => (OpResult.err "Not signed in.", users)
  | some u =>
    if roleIndex nextRole > roleIndex u.role then
      (OpResult.ok,
        users.map (fun v => if v.id = u.id then { v with role := nextRole } else v))
    else
      (OpResult.err "You can only demote your own role, not promote.", users)

/-- C6: the one-way ratchet — for a signed-in user, selfDemote succeeds and
persists the new role exactly when the next role is strictly lower in the
fixed order parent, adult, child; otherwise it fails with the no-promotion
reason and leaves the stored user list unchanged. -/
theorem selfDemote_ratchet (users : List UserR) (u : UserR) (nextRole : Role) :
    (roleIndex nextRole > roleIndex u.role →
      selfDemote users (some u) nextRole =
        (OpResult.ok,
          users.map (fun v => if v.id = u.id then { v with role := nextRole } else v))) ∧
    (¬ roleIndex nextRole > roleIndex u.role →
      selfDemote users (some u) nextRole =
        (OpResult.err "You can only demote your own role, not promote.", users)) := by
  constructor <;> intro h <;> simp [selfDemote, h]

/-- C6 witness: a parent demoting to adult succeeds and rewrites the store; an
adult attempting promotion to parent fails and the store is untouched. -/
theorem selfDemote_ratchet_witness :
    selfDemote
        [{ id := "p1", email := "p@x", role := Role.parent, linkedMemberIds := [],
           salt := "s", passwordHash := "h" }]
        (some { id := "p1", email := "p@x", role := Role.parent, linkedMemberIds := [],
                salt := "s", passwordHash := "h" }) Role.adult =
      (OpResult.ok,
        List.map
          (fun v => if v.id = "p1" then { v with role := Role.adult } else v)
          [{ id := "p1", email := "p@x", role := Role.parent, linkedMemberIds := [],
             salt := "s", passwordHash := "h" }]) ∧
    selfDemote
        [{ id := "a1", email := "a@x", role := Role.adult, linkedMemberIds := [],
           salt := "s", passwordHash := "h" }]
        (some { id := "a1", email := "a@x", role := Role.adult, linkedMemberIds := [],
                salt := "s", passwordHash := "h" }) Role.parent =
      (OpResult.err "You can only demote your own role, not promote.",
        [{ id := "a1", email := "a@x", role := Role.adult, linkedMemberIds := [],
           salt := "s", passwordHash := "h" }]) :=
  ⟨(selfDemote_ratchet _ _ _).1 (by decide), (selfDemote_ratchet _ _ _).2 (by decide)⟩

/-- C9 counterexample: with the flag off (signOut is then a no-op, so the
stored session survives the flag flip), the persisted auth state resolving to
a signed-in child makes `canEditEvent` answer false, not the full access the
claim asserts for every persisted state. -/
theorem canEditEvent_flag_off_counterexample :
    signOut false { currentUserId := some "uc" } = { currentUserId := some "uc" } ∧
    currentUserOf
        [{ id := "uc", email := "c@x", role := Role.child, linkedMemberIds := [],
           salt := "s", passwordHash := "h" }]
        { currentUserId := some "uc" } =
      some { id := "uc", email := "c@x", role := Role.child, linkedMemberIds := [],
             salt := "s", passwordHash := "h" } ∧
    canEditEvent
      (currentUserOf
        [{ id := "uc", email := "c@x", role := Role.child, linkedMemberIds := [],
           salt := "s", passwordHash := "h" }]
        { currentUserId := some "uc" })
      { id := "e1" } = false := by
  refine ⟨rfl, by decide, by decide⟩

/-- C9 amended: with the flag off, the enforcement-level check
`canEditAccordingToAuth` grants full access for every event and context, and
`canEditEvent` grants full access whenever the session resolves to no user;
but `canEditEvent` itself never consults the flag, and `signOut` is a no-op
with the flag off, so a lingering session keeps answering by its role. -/
theorem flag_off_inertness :
    (∀ (evt : AnyEvent) (ctx : Option AuthCtx), canEditAccordingToAuth evt ctx false = true) ∧
    (∀ (evt : AnyEvent) (users : List UserR),
      canEditEvent (currentUserOf users { currentUserId := none }) evt = true) ∧
    (∀ sess : SessionR, signOut false sess = sess) := by
  refine ⟨fun evt ctx => rfl, fun evt users => ?_, fun sess => rfl⟩
  have h : currentUserOf users { currentUserId := none } = none := by
    simp [currentUserOf, List.find?_eq_none]
  rw [h]
  rfl

/-- Splitting the first-truthy responsible check of `canEditEvent` into the
two per-spelling checks of `canEditAccordingToAuth` is sound as long as the
two spellings are not both truthy with different values. -/
theorem strHit_jsOrStr (a b : Option String) (mine : List String)
    (h : strTruthy a = false ∨ strTruthy b = false ∨ a = b) :
    strHit (jsOrStr a b) mine = (strHit a mine || strHit b mine) := by
  cases a with
  | none => simp [jsOrStr, strHit]
  | some s =>
    by_cases hs : s = ""
    · subst hs
      simp [jsOrStr, strHit]
    · rcases h with h | h | h
      · simp [strTruthy, hs] at h
      · cases b with
        | none => simp [jsOrStr, strHit, hs]
        | some t =>
          have ht : t = "" := by
            simpa [strTruthy] using h
          subst ht
          simp [jsOrStr, strHit, hs]
      · rw [← h]
        simp [jsOrStr, strHit, hs]

/-- C10 counterexample: three concrete disagreements between AuthProvider
`canEditEvent` and events-agenda `canEditAccordingToAuth` on identical
inputs — a signed-in child with the flag off, nobody signed in with the flag
on, and an adult on an event carrying both responsible spellings where only
the second is linked. -/
theorem canEdit_agreement_counterexample :
    (canEditEvent
        (some { id := "uc", email := "c@x", role := Role.child, linkedMemberIds := [],
                salt := "s", passwordHash := "h" })
        { id := "e1" } = false ∧
      canEditAccordingToAuth { id := "e1" }
        (some { role := some Role.child, linkedMemberIds := some [] }) false = true) ∧
    (canEditEvent none { id := "e1" } = true ∧
      canEditAccordingToAuth { id := "e1" } none true = false) ∧
    (canEditEvent
        (some { id := "ua", email := "a@x", role := Role.adult, linkedMemberIds := ["m1"],
                salt := "s", passwordHash := "h" })
        { id := "e2", responsibleId := some "x", responsibleMemberId := some "m1" } = false ∧
      canEditAccordingToAuth
        { id := "e2", responsibleId := some "x", responsibleMemberId := some "m1" }
        (some { role := some Role.adult, linkedMemberIds := some ["m1"] }) true = true) := by
  refine ⟨⟨by decide, rfl⟩, ⟨rfl, rfl⟩, ⟨by decide, by decide⟩⟩

/-- C10 amended: the two edit checks agree whenever the flag is on, a user is
signed in and the context mirrors that user, and the event does not carry two
different truthy responsible spellings at once; the remaining inputs (flag
off with a signed-in non-parent, nobody signed in with the flag on, and
shadowed responsible spellings) are exactly where they diverge. -/
theorem canEdit_agreement (u : UserR) (evt : AnyEvent)
    (h : strTruthy evt.responsibleId = false ∨ strTruthy evt.responsibleMemberId = false ∨
      evt.responsibleId = evt.responsibleMemberId) :
    canEditEvent (some u) evt =
      canEditAccordingToAuth evt
        (some { role := some u.role, linkedMemberIds := some u.linkedMemberIds }) true := by
  cases hr : u.role with
  | parent => simp [canEditEvent, canEditAccordingToAuth, hr]
  | child => simp [canEditEvent, canEditAccordingToAuth, hr]
  | adult =>
    simp only [canEditEvent, canEditAccordingToAuth, hr, authAttendeeIds_eq,
      strHit_jsOrStr _ _ _ h, Bool.not_true, Bool.false_eq_true, if_false,
      Option.getD_some, Bool.or_assoc]

/-- C10 witness: the agreement theorem applied at a concrete adult and an
event with a single responsible spelling. -/
theorem canEdit_agreement_witness :
    canEditEvent
        (some { id := "ua", email := "a@x", role := Role.adult,
                linkedMemberIds := ["m1"], salt := "s", passwordHash := "h" })
        { id := "e1", responsibleMemberId := some "m1" } =
      canEditAccordingToAuth { id := "e1", responsibleMemberId := some "m1" }
        (some { role := some Role.adult, linkedMemberIds := some ["m1"] }) true :=
  canEdit_agreement
    { id := "ua", email := "a@x", role := Role.adult,
      linkedMemberIds := ["m1"], salt := "s", passwordHash := "h" }
    { id := "e1", responsibleMemberId := some "m1" } (Or.inl rfl)

/-- Presence state of an optional key on a stored record: absent, present
with the JavaScript value undefined, or present with a string value.  The
`'key' in obj` test of the migration distinguishes absent from undefined;
`JSON.stringify` erases the distinction by dropping undefined-valued keys. -/
inductive OptKey : Type
  | absent
  | undef
  | val (s : String)
deriving DecidableEq, Repr

/-- The `tags` value of a stored event record as the migration classifies it:
key absent (or undefined), a string, an array of strings, or a value of some
other type. -/
inductive TagsVal : Type
  | absent
  | str (s : String)
  | arr (l : List String)
  | other
deriving DecidableEq, Repr

/-- Result record of `normalizeTags`. -/
structure NormTags : Type where
  value : List String
  changed : Bool
deriving DecidableEq, Repr

/-- Character-wise model of `String.prototype.trim()` used by
`normalizeTags`: drop whitespace from both ends. -/
def trimStr (s : String) : String :=
  String.mk (((s.data.dropWhile Char.isWhitespace).reverse.dropWhile
    Char.isWhitespace).reverse)

/-- `normalizeTags` from migrateSliceC.ts, specialized to tag arrays whose
entries are strings, so the `String(v)` coercion is the identity and
`filter(Boolean)` drops exactly the empty strings (its `changed` test then
reduces to: some entry was empty). -/
def normalizeTags : TagsVal → NormTags
  | TagsVal.arr l =>
    { value := l.filter (fun s => s ≠ ""), changed := l.any (fun s => s = "") }
  | TagsVal.str s =>
    let t := trimStr s
    { value := if t = "" then [] else [t], changed := true }
  | TagsVal.absent => { value := [], changed := false }
  | TagsVal.other => { value := [], changed := true }

/-- A stored event record as `migrateEvents` sees it: the fields the
migration touches, plus an opaque bag of all other key-value pairs that the
spread `{ ...evt }` carries through untouched. -/
structure EventObj : Type where
  id : Option String := none
  createdByUserId : OptKey := OptKey.absent
  ownerMemberId : OptKey := OptKey.absent
  tags : TagsVal := TagsVal.absent
  extra : List (String × String) := []
deriving DecidableEq, Repr

/-- The per-event body of `migrateEvents` in migrateSliceC.ts: generate an id
when the present one is falsy, materialize the two ownership keys as
undefined when absent, normalize tags when `normalizeTags` reports a change;
the Bool is the contribution to the `changed` flag. -/
def migrateEvent (newId : String) (evt : EventObj) : EventObj × Bool :=
  let idPair : Option String × Bool :=
    match evt.id with
    | some s => if s = "" then (some newId, true) else (some s, false)
    | none => (some newId, true)
  let cbPair : OptKey × Bool :=
    match evt.createdByUserId with
    | OptKey.absent => (OptKey.undef, true)
    | k => (k, false)
  let owPair : OptKey × Bool :=
    match evt.ownerMemberId with
    | OptKey.absent => (OptKey.undef, true)
    | k => (k, false)
  let nt := normalizeTags evt.tags
  let tgPair : TagsVal × Bool :=
    if nt.changed then (TagsVal.arr nt.value, true) else (evt.tags, false)
  ({ id := idPair.1, createdByUserId := cbPair.1, ownerMemberId := owPair.1,
     tags := tgPair.1, extra := evt.extra },
   idPair.2 || cbPair.2 || owPair.2 || tgPair.2)

/-- What `JSON.stringify` keeps of an optional key: undefined-valued keys are
dropped. -/
def jsonKey : OptKey → OptKey
  | OptKey.undef => OptKey.absent
  | k => k

/-- The JSON round trip a migrated event goes through when written to local
storage and parsed back on the next run. -/
def serializeEvent (e : EventObj) : EventObj :=
  { e with createdByUserId := jsonKey e.createdByUserId,
           ownerMemberId := jsonKey e.ownerMemberId }

/-- One full run of `migrateEvents` over a parsed nonempty stored list: map
the per-event migration (drawing generated ids from `uidGen`), and write the
serialized result back only when the `changed` flag is set.  Returns the
stored list after the run and whether a write happened. -/
def runMigrateEvents (uidGen : Nat → String) (stored : List EventObj) :
    List EventObj × Bool :=
  let pairs := stored.enum.map (fun p => migrateEvent (uidGen p.1) p.2)
  let changed := pairs.any (fun p => p.2)
  (if changed then pairs.map (fun p => serializeEvent p.1) else stored, changed)

/-- C7: evaluation of the migration at the failing input.  For the stored
events list `[{"id":"e1"}]` the first run writes, the written content equals
the original stored content (the undefined-valued ownership keys are dropped
by `JSON.stringify`), and the second run therefore sets `changed` and writes
again — the claimed zero-writes second run does not hold. -/
theorem migrateEvents_second_run_writes :
    (runMigrateEvents (fun _ => "g1") [{ id := some "e1" }]).2 = true ∧
    (runMigrateEvents (fun _ => "g1") [{ id := some "e1" }]).1 = [{ id := some "e1" }] ∧
    (runMigrateEvents (fun _ => "g1")
        (runMigrateEvents (fun _ => "g1") [{ id := some "e1" }]).1).2 = true := by
  refine ⟨by decide, by decide, by decide⟩

/-- A small JSON value universe for settings fields: boolean, number, string,
string array, null. -/
inductive JLite : Type
  | b (x : Bool)
  | n (x : Nat)
  | s (x : String)
  | arrS (l : List String)
  | nullv
deriving DecidableEq, Repr

/-- A parsed `fc_settings_v3` record as `migrateSettings` sees it: the known
fields (each possibly absent), plus the opaque bag of unknown keys the spread
`{ ...parsed }` carries through. -/
structure SettingsObj : Type where
  members : Option JLite := none
  weekStartMonday : Option JLite := none
  timeFormat24h : Option JLite := none
  defaultDurationMins : Option JLite := none
  myAgendaOnly : Option JLite := none
  extra : List (String × JLite) := []
deriving DecidableEq, Repr

/-- `Array.isArray` on an optional settings field. -/
def isArrJ : Option JLite → Bool
  | some (JLite.arrS _) => true
  | _ => false

/-- `migrateSettings` from migrateSliceC.ts: replace a non-array `members`
with `[]`, backfill the scalar defaults when the key is absent, keep
everything else. -/
def migrateSettingsObj (p : SettingsObj) : SettingsObj :=
  { members := if isArrJ p.members then p.members else some (JLite.arrS []),
    weekStartMonday :=
      if p.weekStartMonday.isNone then some (JLite.b false) else p.weekStartMonday,
    timeFormat24h :=
      if p.timeFormat24h.isNone then some (JLite.b true) else p.timeFormat24h,
    defaultDurationMins :=
      if p.defaultDurationMins.isNone then some (JLite.n 60) else p.defaultDurationMins,
    myAgendaOnly :=
      if p.myAgendaOnly.isNone then some (JLite.b false) else p.myAgendaOnly,
    extra := p.extra }

/-- C8 counterexample: two present fields whose values the migration rewrites
rather than leaves unchanged — a non-array `members` in settings becomes
`[]`, and a string `tags` on an event becomes a singleton array. -/
theorem migrate_frame_counterexample :
    ((migrateSettingsObj { members := some (JLite.s "oops") }).members =
        some (JLite.arrS []) ∧
      ({ members := some (JLite.s "oops") } : SettingsObj).members =
        some (JLite.s "oops") ∧
      some (JLite.arrS []) ≠ some (JLite.s "oops")) ∧
    ((migrateEvent "g1" { id := some "e1", tags := TagsVal.str "home" }).1.tags =
        TagsVal.arr ["home"] ∧
      ({ id := some "e1", tags := TagsVal.str "home" } : EventObj).tags =
        TagsVal.str "home" ∧
      TagsVal.arr ["home"] ≠ TagsVal.str "home") := by
  refine ⟨⟨by decide, rfl, by decide⟩, ⟨by decide, rfl, by decide⟩⟩

/-- C8 amended: the frame property of the migration with its two documented
exceptions — unknown keys and well-typed present fields are carried through
unchanged, missing fields only gain their defaults (generated id, undefined
ownership keys, scalar defaults), but a non-array `members` is reset to `[]`
and `tags` is rewritten to its normalized array whenever `normalizeTags`
reports a change. -/
theorem migrate_frame (p : SettingsObj) (newId : String) (e : EventObj) :
    (migrateSettingsObj p).extra = p.extra ∧
    (isArrJ p.members = true → (migrateSettingsObj p).members = p.members) ∧
    (∀ v, p.weekStartMonday = some v → (migrateSettingsObj p).weekStartMonday = some v) ∧
    (∀ v, p.timeFormat24h = some v → (migrateSettingsObj p).timeFormat24h = some v) ∧
    (∀ v, p.defaultDurationMins = some v →
      (migrateSettingsObj p).defaultDurationMins = some v) ∧
    (∀ v, p.myAgendaOnly = some v → (migrateSettingsObj p).myAgendaOnly = some v) ∧
    (migrateEvent newId e).1.extra = e.extra ∧
    (∀ s, e.id = some s → s ≠ "" → (migrateEvent newId e).1.id = some s) ∧
    (e.createdByUserId ≠ OptKey.absent →
      (migrateEvent newId e).1.createdByUserId = e.createdByUserId) ∧
    (e.ownerMemberId ≠ OptKey.absent →
      (migrateEvent newId e).1.ownerMemberId = e.ownerMemberId) ∧
    ((migrateEvent newId e).1.tags = e.tags ∨
      (migrateEvent newId e).1.tags = TagsVal.arr (normalizeTags e.tags).value) ∧
    (e.id = none → (migrateEvent newId e).1.id = some newId) ∧
    (e.createdByUserId = OptKey.absent →
      (migrateEvent newId e).1.createdByUserId = OptKey.undef) ∧
    (e.ownerMemberId = OptKey.absent →
      (migrateEvent newId e).1.ownerMemberId = OptKey.undef) := by
  refine ⟨rfl, fun hm => ?_, fun v hv => ?_, fun v hv => ?_, fun v hv => ?_,
    fun v hv => ?_, rfl, fun s hs hne => ?_, fun hcb => ?_, fun how => ?_, ?_,
    fun hid => ?_, fun hcb => ?_, fun how => ?_⟩
  · simp [migrateSettingsObj, hm]
  · simp [migrateSettingsObj, hv]
  · simp [migrateSettingsObj, hv]
  · simp [migrateSettingsObj, hv]
  · simp [migrateSettingsObj, hv]
  · simp [migrateEvent, hs, hne]
  · cases hcb' : e.createdByUserId with
    | absent => exact absurd hcb' hcb
    | undef => simp [migrateEvent, hcb']
    | val s => simp [migrateEvent, hcb']
  · cases how' : e.ownerMemberId with
    | absent => exact absurd how' how
    | undef => simp [migrateEvent, how']
    | val s => simp [migrateEvent, how']
  · by_cases hnt : (normalizeTags e.tags).changed
    · exact Or.inr (by simp [migrateEvent, hnt])
    · exact Or.inl (by simp [migrateEvent, hnt])
  · simp [migrateEvent, hid]
  · simp [migrateEvent, hcb]
  · simp [migrateEvent, how]

/-- C8 witness: the frame property applied at a concrete settings record and
a concrete event, showing a present scalar and a present ownership key
survive the migration. -/
theorem migrate_frame_witness :
    (migrateSettingsObj { myAgendaOnly := some (JLite.b true) }).myAgendaOnly =
      some (JLite.b true) ∧
    (migrateEvent "g1"
        { id := some "e1", createdByUserId := OptKey.val "u9" }).1.createdByUserId =
      OptKey.val "u9" :=
  ⟨(migrate_frame { myAgendaOnly := some (JLite.b true) } "g1"
      { id := some "e1", createdByUserId := OptKey.val "u9" }).2.2.2.2.2.1
      (JLite.b true) rfl,
   (migrate_frame { myAgendaOnly := some (JLite.b true) } "g1"
      { id := some "e1", createdByUserId := OptKey.val "u9" }).2.2.2.2.2.2.2.2.1
      (by decide)⟩
